import Mathlib

/-!
Verification of the target-explorer reconciliation core.

The Go source consists of `main.go`/`consumer.go`/`eventlog.go` (provided as
one unnamed compilation unit) and `producer.go`.  This file gives a shallow
embedding of the data model and the operations the claims are about:
the `event` record and the action-name table, the `eventLog` buffer
(`push`/`flush`), the consumer's `applyEventFilter`, `getCurrentState`,
`diff` and `publish`, and the snapshot producer `scraperImpl.produceEventsFor`.

Go maps are modelled as association lists with at most one entry per key
(`mapSet` replaces, `mapDel` removes); since Go's map iteration order is
unspecified, properties are stated through the `lookup` function, and
functions that iterate a Go map are given the map's entry list.
Effectful collaborators (the docker inspect call, the file system, the HTTP
reload endpoint) are passed in as explicit inputs.  A Go runtime panic
(out-of-range slice index) is modelled as a distinguished outcome, since it
aborts the process rather than returning an error.
-/

namespace TargetExplorer

/-- `eventType` from eventlog.go.  The Go constants start at `iota + 1`;
the value `0` — produced by a lookup miss in `eventTable` — is the extra
`unknownEvent` variant. -/
inductive eventType where
  | unknownEvent
  | startEvent
  | runningEvent
  | stopEvent
  | dieEvent
deriving DecidableEq, Repr

/-- `event` from eventlog.go: `action`, `containerID`, `name`, `recordedAt`
(the timestamp is informational only; modelled as a `Nat`). -/
structure event where
  action : eventType
  containerID : String
  name : String
  recordedAt : Nat
deriving DecidableEq, Repr

/-- `eventTable` from eventlog.go: the Go map `{"start": startEvent, ...}`.
A Go map read is total; a missing key yields the zero value, here
`unknownEvent`. -/
def eventTable (s : String) : eventType :=
  if s = "start" then .startEvent
  else if s = "running" then .runningEvent
  else if s = "stop" then .stopEvent
  else if s = "die" then .dieEvent
  else .unknownEvent

/-! ### Go maps as association lists -/

/-- A Go `map[string]α`, as its entry list.  All mutation goes through
`mapSet`/`mapDel`, which keep at most one entry per key. -/
abbrev GoMap (α : Type) := List (String × α)

/-- Go map read `m[k]` (the `ok` form): `some v` when the key is present. -/
def lookup {α : Type} : List (String × α) → String → Option α
  | [], _ => none
  | p :: m, k => if p.1 = k then some p.2 else lookup m k

/-- Go `delete(m, k)`. -/
def mapDel {α : Type} : List (String × α) → String → List (String × α)
  | [], _ => []
  | p :: m, k => if p.1 = k then mapDel m k else p :: mapDel m k

/-- Go map write `m[k] = v`: replaces any existing entry for `k`. -/
def mapSet {α : Type} (m : List (String × α)) (k : String) (v : α) :
    List (String × α) :=
  mapDel m k ++ [(k, v)]

theorem lookup_append {α : Type} (m m' : List (String × α)) (k : String) :
    lookup (m ++ m') k = (lookup m k).or (lookup m' k) := by
  induction m with
  | nil => simp [lookup]
  | cons p m ih =>
    by_cases h : p.1 = k <;> simp [lookup, h, ih]

theorem lookup_mapDel_self {α : Type} (m : List (String × α)) (k : String) :
    lookup (mapDel m k) k = none := by
  induction m with
  | nil => simp [mapDel, lookup]
  | cons p m ih => by_cases h : p.1 = k <;> simp [mapDel, h, lookup, ih]

theorem lookup_mapDel_ne {α : Type} (m : List (String × α)) (k k' : String)
    (h' : k' ≠ k) : lookup (mapDel m k) k' = lookup m k' := by
  induction m with
  | nil => rfl
  | cons p m ih =>
    by_cases h : p.1 = k
    · simp [mapDel, h, lookup, ih, Ne.symm h']
    · simp [mapDel, h, lookup, ih]

theorem lookup_mapDel {α : Type} (m : List (String × α)) (k k' : String) :
    lookup (mapDel m k) k' = if k' = k then none else lookup m k' := by
  by_cases h : k' = k
  · subst h; simp [lookup_mapDel_self]
  · simp [h, lookup_mapDel_ne m k k' h]

theorem lookup_mapSet {α : Type} (m : List (String × α)) (k : String) (v : α)
    (k' : String) :
    lookup (mapSet m k v) k' = if k' = k then some v else lookup m k' := by
  unfold mapSet
  rw [lookup_append, lookup_mapDel]
  by_cases h : k' = k
  · simp [lookup, h]
  · simp [lookup, h, Ne.symm h]

/-! ### The eventLog (eventlog.go)

The buffer state is its event list; the mutex only serialises `push` and
`flush`, so a run of the log is a sequence of atomic operations on that
list. -/

/-- `eventLog.push`: appends the event to the tail of the buffer. -/
def push (buf : List event) (e : event) : List event :=
  buf ++ [e]

/-- `eventLog.flush`: returns a copy of the whole buffer and sets it to nil;
first component is the returned sequence, second the buffer afterwards. -/
def flush (buf : List event) : List event × List event :=
  (buf, [])

/-- One serialised operation on the event log. -/
inductive elOp where
  | push (e : event)
  | flush
deriving DecidableEq, Repr

/-- Runs a sequence of operations on the log, returning the final buffer and
the list of the results of each `flush`, in order. -/
def runLog : List elOp → List event → List event × List (List event)
  | [], buf => (buf, [])
  | .push e :: ops, buf => runLog ops (push buf e)
  | .flush :: ops, buf =>
    let r := runLog ops (flush buf).2
    (r.1, (flush buf).1 :: r.2)

/-- The events pushed by a sequence of operations, in push order. -/
def pushedEvents (ops : List elOp) : List event :=
  ops.filterMap fun op =>
    match op with
    | .push e => some e
    | .flush => none

theorem runLog_flushes_append (ops : List elOp) (buf : List event) :
    (runLog ops buf).2.flatten ++ (runLog ops buf).1
      = buf ++ pushedEvents ops := by
  induction ops generalizing buf with
  | nil => simp [runLog, pushedEvents]
  | cons op ops ih =>
    cases op with
    | push e => simp [runLog, pushedEvents, push, ih, List.filterMap]
    | flush => simp [runLog, pushedEvents, flush, ih, List.filterMap]

/-! ### Coalescing (consumer.applyEventFilter) -/

/-- `consumer.applyEventFilter`: folds the drained events in arrival order
into a Go map keyed by `containerID`, overwriting on collision. -/
def applyEventFilter (events : List event) : GoMap event :=
  events.foldl (fun m e => mapSet m e.containerID e) []

theorem lookup_foldl_mapSet_event (evs : List event) (m : GoMap event)
    (k : String) :
    lookup (evs.foldl (fun m e => mapSet m e.containerID e) m) k
      = (evs.reverse.find? (fun e => e.containerID = k)).or (lookup m k) := by
  induction evs generalizing m with
  | nil => simp
  | cons e evs ih =>
    simp only [List.foldl_cons, ih, List.reverse_cons, List.find?_append]
    cases hfind : evs.reverse.find? (fun e => e.containerID = k) with
    | some v => simp [Option.or]
    | none =>
      by_cases h : e.containerID = k
      · simp [List.find?, h, lookup_mapSet, Option.or]
      · simp [List.find?, h, Ne.symm h, lookup_mapSet, Option.or]

/-- Coalescing is last-write-wins per `containerID`: the coalesced map's
entry for `k` is the last drained event whose `containerID` is `k`. -/
theorem lookup_applyEventFilter (evs : List event) (k : String) :
    lookup (applyEventFilter evs) k
      = evs.reverse.find? (fun e => e.containerID = k) := by
  unfold applyEventFilter
  rw [lookup_foldl_mapSet_event]
  simp [lookup, Option.or]
  cases evs.reverse.find? (fun e => e.containerID = k) <;> simp [Option.or]

/-! ### The persisted state file (consumer.getCurrentState / consumer.publish) -/

/-- One element of `StaticConfigs` in `prometheusConf`. -/
structure staticConfig where
  targets : List String
deriving DecidableEq, Repr

/-- One element of `ScrapeConfigs` in `prometheusConf`. -/
structure scrapeConfig where
  jobName : String
  staticConfigs : List staticConfig
deriving DecidableEq, Repr

/-- `prometheusConf` from consumer.go (the fields the code reads/writes). -/
structure prometheusConf where
  scrapeInterval : String
  scrapeConfigs : List scrapeConfig
deriving DecidableEq, Repr

/-- The access `scrapeConfig.StaticConfigs[0].Targets[0]` performed by
`getCurrentState`.  `none` models the Go out-of-range panic when the entry
has no static config or no target. -/
def extractEntry (sc : scrapeConfig) : Option String :=
  match sc.staticConfigs with
  | [] => none
  | c :: _ =>
    match c.targets with
    | [] => none
    | t :: _ => some t

/-- The loop of `getCurrentState` over a parsed config:
`stateMap[scrapeConfig.JobName] = scrapeConfig.StaticConfigs[0].Targets[0]`
for each scrape config in file order.  `none` models the out-of-range panic
aborting the loop. -/
def getCurrentStateLoop : List scrapeConfig → GoMap String → Option (GoMap String)
  | [], m => some m
  | sc :: scs, m =>
    match extractEntry sc with
    | none => none
    | some t => getCurrentStateLoop scs (mapSet m sc.jobName t)

/-- The state map `getCurrentState` builds from a parsed config. -/
def getCurrentStateFromConf (conf : prometheusConf) : Option (GoMap String) :=
  getCurrentStateLoop conf.scrapeConfigs []

/-- The outcome of `os.ReadFile` + `yaml.Unmarshal` on the persisted file. -/
inductive fileResult where
  | notExist
  | readError
  | parseError
  | parsed (conf : prometheusConf)
deriving DecidableEq, Repr

/-- Outcome of `consumer.getCurrentState`: a state map, a returned error,
or a Go runtime panic (which aborts the process). -/
inductive stateLoadOutcome where
  | ok (m : GoMap String)
  | error
  | panic
deriving DecidableEq, Repr

/-- `consumer.getCurrentState`: a missing file yields the empty map; any
other read error or an unmarshal error is returned as an error; a parsed
config is folded into the state map (possibly panicking on indexing). -/
def getCurrentState : fileResult → stateLoadOutcome
  | .notExist => .ok []
  | .readError => .error
  | .parseError => .error
  | .parsed conf =>
    match getCurrentStateFromConf conf with
    | some m => .ok m
    | none => .panic

/-! ### Diff (consumer.diff) -/

/-- The body of `consumer.diff`'s loop for one coalesced event.
`lookupHost` is `consumer.lookupHostMappingFor` (docker inspect with the
2112/tcp port): `some addr` on success, `none` on error (logged, skip).
Start/Running upserts `stateMap[event.name]`; Stop/Die executes
`delete(stateMap, event.containerID)`; any other action falls through the
switch. -/
def diffStep (lookupHost : String → Option String) (m : GoMap String)
    (e : event) : GoMap String :=
  match e.action with
  | .startEvent | .runningEvent =>
    match lookupHost e.containerID with
    | some hostMapping => mapSet m e.name hostMapping
    | none => m
  | .stopEvent | .dieEvent => mapDel m e.containerID
  | .unknownEvent => m

/-- `consumer.diff`: iterates the coalesced events (the Go map's entries,
given as a list since Go's iteration order is unspecified) over the loaded
state map. -/
def diff (lookupHost : String → Option String) (events : List event)
    (stateMap : GoMap String) : GoMap String :=
  events.foldl (diffStep lookupHost) stateMap

/-! ### Publish (consumer.publish) -/

/-- The scrape config `consumer.publish` appends for one entry of the
scrape-target map: a single static config with a single target. -/
def publishEntry (p : String × String) : scrapeConfig :=
  { jobName := p.1, staticConfigs := [{ targets := [p.2] }] }

/-- The `prometheusConf` value built by `consumer.publish` from the entries
of the scrape-target map: the fixed `"60s"` interval, and one scrape config
per entry. -/
def publishConf (entries : List (String × String)) : prometheusConf :=
  { scrapeInterval := "60s"
    scrapeConfigs := entries.map publishEntry }

/-! ### The reconciliation cycle (consumer.consume) -/

/-- Observable effects of one `consumer.consume` invocation.  `published`
holds the map handed to `publish` when that call is reached. -/
structure consumeResult where
  stateRead : Bool
  diffComputed : Bool
  published : Option (GoMap String)
  signalAttempted : Bool
  errorLogged : Bool
deriving DecidableEq, Repr

/-- `consumer.consume`: drained `events` come from `flush`; `file` is what
reading the persisted file yields; `lookupHost` models docker inspect;
`publishOk`/`signalOk` tell whether `publish`/`sendSignal` succeed (their
failures are only logged).  `none` models a Go panic inside the cycle. -/
def consume (events : List event) (file : fileResult)
    (lookupHost : String → Option String) (publishOk signalOk : Bool) :
    Option consumeResult :=
  if events.isEmpty then
    some ⟨false, false, none, false, false⟩
  else
    let filteredEvents := applyEventFilter events
    match getCurrentState file with
    | .error => some ⟨true, false, none, false, true⟩
    | .panic => none
    | .ok stateMap =>
      let scrapeTargets := diff lookupHost (filteredEvents.map Prod.snd) stateMap
      some ⟨true, true, some scrapeTargets, true, !publishOk || !signalOk⟩

/-! ### The snapshot producer (producer.go, scraperImpl.produceEventsFor) -/

/-- A container summary as returned by `docker.ContainerList`: the fields
the scraper reads. -/
structure containerSummary where
  id : String
  names : List String
  labels : GoMap String
deriving DecidableEq, Repr

/-- Go's `strconv.ParseBool`: `none` models its error return. -/
def parseBool (s : String) : Option Bool :=
  if s = "1" ∨ s = "t" ∨ s = "T" ∨ s = "true" ∨ s = "TRUE" ∨ s = "True" then
    some true
  else if s = "0" ∨ s = "f" ∨ s = "F" ∨ s = "false" ∨ s = "FALSE" ∨ s = "False" then
    some false
  else
    none

/-- Whether the scraper treats a container as a target: its
`"scrape_target"` label is present and `ParseBool` yields `true` (on a
parse error Go leaves `isTarget` at its zero value `false`, so the
container is skipped after the logged error). -/
def isScrapeTarget (c : containerSummary) : Bool :=
  match lookup c.labels "scrape_target" with
  | some label => parseBool label == some true
  | none => false

/-- The event the scraper pushes for a target container: action Running,
the container's ID, and `Names[0]` (docker always returns at least one
name; `headD` supplies a default for the empty list). -/
def runningEventFor (c : containerSummary) (now : Nat) : event :=
  { action := .runningEvent
    containerID := c.id
    name := c.names.headD ""
    recordedAt := now }

/-- One iteration of the scraper's container loop: if the container's
`scrape_target` label is present and parses to `true`, the Running event is
pushed; a parse error only logs (`isTarget` stays `false`), and an absent
label skips the container. -/
def scraperStep (now : Nat) (acc : List event) (c : containerSummary) :
    List event :=
  match lookup c.labels "scrape_target" with
  | none => acc
  | some label =>
    match parseBool label with
    | some true => acc ++ [runningEventFor c now]
    | _ => acc

/-- `scraperImpl.produceEventsFor`, as the list of events it pushes to the
event log, in order. -/
def scraperProduceEventsFor (containers : List containerSummary) (now : Nat) :
    List event :=
  containers.foldl (scraperStep now) []

/-! ### Supporting lemmas -/

theorem lookup_eq_find? {α : Type} (m : List (String × α)) (k : String) :
    lookup m k = (m.find? (fun p => p.1 = k)).map Prod.snd := by
  induction m with
  | nil => rfl
  | cons p m ih => by_cases h : p.1 = k <;> simp [lookup, List.find?, h, ih]

theorem find?_eq_none_of_key_not_mem {α : Type} (m : List (String × α))
    (k : String) (h : k ∉ m.map Prod.fst) :
    m.find? (fun p => p.1 = k) = none := by
  rw [List.find?_eq_none]
  intro p hp
  simp only [decide_eq_true_eq]
  intro hk
  exact h (hk ▸ List.mem_map_of_mem Prod.fst hp)

/-! ### Claim theorems -/

/-- C2: over any serialised sequence of pushes and flushes starting from the
empty buffer, the concatenation of all flush results followed by the final
buffer equals the pushed events in push order — so every pushed event
reaches exactly one flush (or is still buffered), each flush returns its
events in arrival order, no event recurs across flushes; moreover a flush
always leaves the buffer empty, and a flush of the empty buffer returns the
empty sequence. -/
theorem eventLog_push_flush_exactly_once :
    (∀ ops : List elOp,
        (runLog ops []).2.flatten ++ (runLog ops []).1 = pushedEvents ops)
    ∧ (∀ buf : List event, (flush buf).2 = [])
    ∧ (flush ([] : List event)).1 = [] :=
  ⟨fun ops => by simpa using runLog_flushes_append ops [],
   fun _ => rfl, rfl⟩

/-- C3: coalescing is last-write-wins keyed by workload identifier: the
coalesced map's entry for an identifier is the last drained event carrying
it; in particular `[(W1,Start),(W1,Die),(W2,Running)]` coalesces to
`{W1 ↦ Die, W2 ↦ Running}`. -/
theorem coalesce_last_write_wins :
    (∀ (evs : List event) (k : String),
        lookup (applyEventFilter evs) k
          = evs.reverse.find? (fun e => e.containerID = k))
    ∧ lookup (applyEventFilter
          [⟨.startEvent, "W1", "svc-1", 0⟩, ⟨.dieEvent, "W1", "svc-1", 1⟩,
           ⟨.runningEvent, "W2", "svc-2", 2⟩]) "W1"
        = some ⟨.dieEvent, "W1", "svc-1", 1⟩
    ∧ lookup (applyEventFilter
          [⟨.startEvent, "W1", "svc-1", 0⟩, ⟨.dieEvent, "W1", "svc-1", 1⟩,
           ⟨.runningEvent, "W2", "svc-2", 2⟩]) "W2"
        = some ⟨.runningEvent, "W2", "svc-2", 2⟩ :=
  ⟨lookup_applyEventFilter, by decide, by decide⟩

/-- C1 (failing input): the code's diff deletes by `containerID`, not by
job name.  A workload with identifier `"w1"` and name `"svc-a"` is
published under key `"svc-a"` on Start, but a later Die event executes
`delete(stateMap, "w1")`, which removes nothing: the diff of the Die event
returns the state unchanged and `"svc-a"` is still mapped. -/
theorem diff_die_leaves_name_keyed_entry :
    lookup (diff
        (fun cid => if cid = "w1" then some "host.docker.internal:32000" else none)
        [⟨.startEvent, "w1", "svc-a", 0⟩] []) "svc-a"
      = some "host.docker.internal:32000"
    ∧ diff (fun _ => none) [⟨.dieEvent, "w1", "svc-a", 1⟩]
          [("svc-a", "host.docker.internal:32000")]
        = [("svc-a", "host.docker.internal:32000")]
    ∧ lookup (diff (fun _ => none) [⟨.dieEvent, "w1", "svc-a", 1⟩]
          [("svc-a", "host.docker.internal:32000")]) "svc-a"
      = some "host.docker.internal:32000" := by
  refine ⟨?_, ?_, ?_⟩ <;> decide

/-- C4 (failing input): on a successfully parsed persisted file holding a
scrape config with an empty `static_configs` list, `getCurrentState`
evaluates `StaticConfigs[0]` — an out-of-range index, a Go runtime panic
that aborts the process instead of returning an error. -/
theorem getCurrentState_panics_on_empty_static_configs :
    getCurrentState (.parsed ⟨"60s", [⟨"svc-a", []⟩]⟩) = .panic := rfl

/-- C6: when the drain returns no events, `consume` returns before reading
the persisted file: no state read, no diff, no publish, no reload signal,
nothing logged — regardless of what the file holds or the collaborators
would do. -/
theorem empty_flush_cycle_is_noop (file : fileResult)
    (lookupHost : String → Option String) (publishOk signalOk : Bool) :
    consume [] file lookupHost publishOk signalOk
      = some ⟨false, false, none, false, false⟩ := rfl

/-- C7: the action-name table is total — every unrecognized name yields the
zero variant `unknownEvent` rather than a crash — and the diff step leaves
the target state unchanged for an event whose action is not Start, Running,
Stop or Die. -/
theorem unknown_action_name_is_inert :
    (∀ s : String, s ≠ "start" → s ≠ "running" → s ≠ "stop" → s ≠ "die" →
        eventTable s = .unknownEvent)
    ∧ ∀ (lookupHost : String → Option String) (m : GoMap String) (e : event),
        e.action = .unknownEvent → diff lookupHost [e] m = m := by
  constructor
  · intro s h1 h2 h3 h4
    simp [eventTable, h1, h2, h3, h4]
  · intro lookupHost m e he
    simp [diff, diffStep, he]

/-- Witness for C7 at the unrecognized action name `"destroy"` and a
concrete event carrying the zero variant. -/
theorem unknown_action_name_is_inert_witness :
    eventTable "destroy" = .unknownEvent
    ∧ diff (fun _ => none) [⟨.unknownEvent, "w1", "svc-a", 0⟩]
          [("svc-a", "host.docker.internal:32000")]
        = [("svc-a", "host.docker.internal:32000")] :=
  ⟨unknown_action_name_is_inert.1 "destroy" (by decide) (by decide) (by decide)
      (by decide),
   unknown_action_name_is_inert.2 (fun _ => none) _ _ rfl⟩

theorem getCurrentStateLoop_spec (scs : List scrapeConfig) (m : GoMap String)
    (h : ∀ sc ∈ scs, (extractEntry sc).isSome) :
    ∃ m', getCurrentStateLoop scs m = some m'
      ∧ ∀ k, lookup m' k
          = ((scs.reverse.find? (fun sc => sc.jobName = k)).bind
              extractEntry).or (lookup m k) := by
  induction scs generalizing m with
  | nil => exact ⟨m, rfl, fun k => by simp⟩
  | cons sc scs ih =>
    obtain ⟨t, ht⟩ := Option.isSome_iff_exists.mp (h sc (by simp))
    obtain ⟨m', hm', hl⟩ :=
      ih (mapSet m sc.jobName t) (fun x hx => h x (by simp [hx]))
    refine ⟨m', ?_, ?_⟩
    · rw [getCurrentStateLoop, ht]
      exact hm'
    · intro k
      rw [hl k, List.reverse_cons, List.find?_append]
      cases hfind : scs.reverse.find? (fun sc => sc.jobName = k) with
      | some v =>
        have hv : v ∈ scs := by
          simpa using List.mem_of_find?_eq_some hfind
        obtain ⟨tv, htv⟩ := Option.isSome_iff_exists.mp (h v (by simp [hv]))
        simp [htv]
      | none =>
        by_cases hk : sc.jobName = k
        · subst hk
          simp [List.find?, ht, lookup_mapSet]
        · simp [List.find?, hk, lookup_mapSet, Ne.symm hk]

theorem publish_find?_lookup (l : List (String × String)) (k : String)
    (h : (l.map Prod.fst).Nodup) :
    ((l.map publishEntry).reverse.find?
        (fun sc => sc.jobName = k)).bind extractEntry
      = lookup l k := by
  induction l with
  | nil => rfl
  | cons p l ih =>
    rw [List.map_cons, List.nodup_cons] at h
    rw [List.map_cons, List.reverse_cons, List.find?_append]
    by_cases hk : p.1 = k
    · subst hk
      have hnone : (l.map publishEntry).reverse.find?
          (fun sc => sc.jobName = p.1) = none := by
        rw [List.find?_eq_none]
        intro sc hsc
        rw [List.mem_reverse, List.mem_map] at hsc
        obtain ⟨q, hq, rfl⟩ := hsc
        simp only [publishEntry, decide_eq_true_eq]
        intro hq1
        exact h.1 (hq1 ▸ List.mem_map_of_mem Prod.fst hq)
      rw [hnone, Option.none_or]
      simp [List.find?, publishEntry, extractEntry, lookup]
    · have hB : ([publishEntry p].find? (fun sc => sc.jobName = k)) = none := by
        simp [List.find?, publishEntry, hk]
      rw [hB, Option.or_none, ih h.2]
      simp [lookup, hk]

/-- C5: `getCurrentState` yields the empty map when the persisted file does
not exist; on any other read error or a parse error, `consume` aborts right
after loading: the error is logged, no diff is computed, `publish` and
`sendSignal` are never called, and the already-drained events of the cycle
are dropped. -/
theorem state_load_failure_aborts_cycle :
    getCurrentState .notExist = .ok []
    ∧ ∀ (events : List event) (lookupHost : String → Option String)
        (publishOk signalOk : Bool) (file : fileResult),
        events ≠ [] → (file = .readError ∨ file = .parseError) →
        consume events file lookupHost publishOk signalOk
          = some ⟨true, false, none, false, true⟩ := by
  refine ⟨rfl, ?_⟩
  intro events lookupHost publishOk signalOk file hne hfile
  have hev : events.isEmpty = false := by
    simpa [List.isEmpty_iff] using hne
  rcases hfile with rfl | rfl <;> simp [consume, hev, getCurrentState]

/-- Witness for C5 on a one-event drain and a failing file read. -/
theorem state_load_failure_aborts_cycle_witness :
    (([⟨.dieEvent, "w1", "svc-a", 0⟩] : List event) ≠ []
      ∧ (fileResult.readError = .readError ∨ fileResult.readError = .parseError))
    ∧ consume [⟨.dieEvent, "w1", "svc-a", 0⟩] .readError (fun _ => none)
          true true
        = some ⟨true, false, none, false, true⟩ :=
  ⟨⟨by decide, Or.inl rfl⟩,
   state_load_failure_aborts_cycle.2 _ (fun _ => none) true true _ (by decide)
     (Or.inl rfl)⟩

/-- C8: publishing any scrape-target map (its entries in any order, keys
distinct as in a Go map) and loading the written config back yields an
equal mapping. -/
theorem publish_reload_roundtrip (entries : List (String × String))
    (h : (entries.map Prod.fst).Nodup) :
    ∃ m, getCurrentStateFromConf (publishConf entries) = some m
      ∧ ∀ k, lookup m k = lookup entries k := by
  have hall : ∀ sc ∈ (publishConf entries).scrapeConfigs,
      (extractEntry sc).isSome := by
    intro sc hsc
    rw [publishConf, List.mem_map] at hsc
    obtain ⟨p, _, rfl⟩ := hsc
    rfl
  obtain ⟨m, hm, hl⟩ :=
    getCurrentStateLoop_spec (publishConf entries).scrapeConfigs [] hall
  refine ⟨m, hm, fun k => ?_⟩
  rw [hl k]
  simp only [lookup, Option.or_none]
  exact publish_find?_lookup entries k h

/-- Witness for C8 on the spec's example state. -/
theorem publish_reload_roundtrip_witness :
    ((([("svc-a", "host.docker.internal:32000")] :
        List (String × String)).map Prod.fst).Nodup)
    ∧ ∃ m, getCurrentStateFromConf
          (publishConf [("svc-a", "host.docker.internal:32000")]) = some m
        ∧ ∀ k, lookup m k
            = lookup [("svc-a", "host.docker.internal:32000")] k :=
  ⟨by decide, publish_reload_roundtrip _ (by decide)⟩

theorem scraper_foldl_characterisation (cs : List containerSummary)
    (now : Nat) (acc : List event) :
    cs.foldl (scraperStep now) acc
      = acc ++ (cs.filter isScrapeTarget).map (fun c => runningEventFor c now) := by
  induction cs generalizing acc with
  | nil => simp
  | cons c cs ih =>
    rw [List.foldl_cons, ih]
    cases hlk : lookup c.labels "scrape_target" with
    | none => simp [scraperStep, isScrapeTarget, hlk]
    | some label =>
      cases hpb : parseBool label with
      | none => simp [scraperStep, isScrapeTarget, hlk, hpb]
      | some b =>
        cases b with
        | true => simp [scraperStep, isScrapeTarget, hlk, hpb]
        | false => simp [scraperStep, isScrapeTarget, hlk, hpb]

/-- C9: the snapshot producer pushes exactly one Running event — carrying
the container's identifier and primary name — for each listed container
whose `scrape_target` label is present and parses as `true`, in list
order; a container with no such label, or whose label value does not parse
as a boolean, contributes no event. -/
theorem scraper_emits_one_running_per_target
    (containers : List containerSummary) (now : Nat) :
    scraperProduceEventsFor containers now
      = (containers.filter isScrapeTarget).map (fun c => runningEventFor c now)
    ∧ ∀ c : containerSummary,
        isScrapeTarget c = true
          ↔ ∃ label, lookup c.labels "scrape_target" = some label
              ∧ parseBool label = some true := by
  constructor
  · simpa using scraper_foldl_characterisation containers now []
  · intro c
    unfold isScrapeTarget
    cases hlk : lookup c.labels "scrape_target" with
    | none => simp
    | some label =>
      cases hpb : parseBool label with
      | none => simp [hpb]
      | some b => cases b <;> simp [hpb]

/-- C10: when every job entry of a parsed file has a first static config
with a first target, loading keeps exactly that first target for the entry
(further static configs and targets are dropped), and for duplicate job
names the last entry in file order wins. -/
theorem getCurrentState_first_target_last_entry (conf : prometheusConf)
    (h : ∀ sc ∈ conf.scrapeConfigs, (extractEntry sc).isSome) :
    ∃ m, getCurrentStateFromConf conf = some m
      ∧ ∀ k, lookup m k
          = (conf.scrapeConfigs.reverse.find?
              (fun sc => sc.jobName = k)).bind extractEntry := by
  obtain ⟨m, hm, hl⟩ := getCurrentStateLoop_spec conf.scrapeConfigs [] h
  exact ⟨m, hm, fun k => by simpa [lookup, Option.or_none] using hl k⟩

/-- Witness for C10: a file with two entries named `"a"` — the first with
two static configs and two targets in the first — loads to the single
target `"t4"` of the last entry. -/
theorem getCurrentState_first_target_last_entry_witness :
    (∀ sc ∈ (⟨"60s",
        [⟨"a", [⟨["t1", "t2"]⟩, ⟨["t3"]⟩]⟩, ⟨"a", [⟨["t4"]⟩]⟩]⟩ :
          prometheusConf).scrapeConfigs, (extractEntry sc).isSome)
    ∧ ∃ m, getCurrentStateFromConf
          (⟨"60s", [⟨"a", [⟨["t1", "t2"]⟩, ⟨["t3"]⟩]⟩, ⟨"a", [⟨["t4"]⟩]⟩]⟩ :
            prometheusConf) = some m
        ∧ ∀ k, lookup m k
            = ((⟨"60s",
                [⟨"a", [⟨["t1", "t2"]⟩, ⟨["t3"]⟩]⟩, ⟨"a", [⟨["t4"]⟩]⟩]⟩ :
                  prometheusConf).scrapeConfigs.reverse.find?
                (fun sc => sc.jobName = k)).bind extractEntry :=
  ⟨by decide, getCurrentState_first_target_last_entry _ (by decide)⟩

end TargetExplorer
